import Mathlib

/-!
Verification of the migrate-i18n utilities (`convert_project.py` and
`eclipse_jinto_setup.py`) against their natural-language specification.

The Python code is shallowly embedded over `List Char` (Python `str`).
File contents are strings; a "file" is modelled by its content, and the
iteration `for line in f` is modelled by splitting the content into
newline-terminated chunks (`splitLinesKeepNl`).  Python exceptions are
modelled with `Except Unit`: an uncaught exception is an `Except.error`
value that propagates.  Python's `str.replace` (replace all occurrences,
left to right, never rescanning inserted text) is `pyReplace`.  Python's
stable `sorted` is modelled with `List.insertionSort`, which is also
stable, so the two agree on every input (a stable sort's output is
uniquely determined by the key order and the input order).
-/

set_option maxRecDepth 20000

instance {ε α : Type} [DecidableEq ε] [DecidableEq α] : DecidableEq (Except ε α)
  | .error a, .error b => decidable_of_iff (a = b) (by simp)
  | .ok a, .ok b => decidable_of_iff (a = b) (by simp)
  | .error _, .ok _ => isFalse (by simp)
  | .ok _, .error _ => isFalse (by simp)

/-- Convert a Lean string literal to the `List Char` representation used
throughout the development. -/
def str (s : String) : List Char := s.data

/-- ASCII whitespace as recognised by Python's `str.strip` / `str.split`
(Unicode whitespace is not modelled; no input in this development uses it). -/
def pyIsSpace (c : Char) : Bool :=
  c = ' ' || c = '\t' || c = '\n' || c = '\r' || c = '\x0b' || c = '\x0c'

/-- Python `s.strip()`. -/
def pyStrip (s : List Char) : List Char :=
  ((s.dropWhile pyIsSpace).reverse.dropWhile pyIsSpace).reverse

/-- Python `s.replace(old, new)` for an empty `old`: `new` is inserted
around every character. -/
def pyReplaceEmpty (new : List Char) : List Char → List Char
  | [] => new
  | c :: cs => new ++ c :: pyReplaceEmpty new cs

/-- Fuel-driven scanner for `pyReplace`: at each position, if `old` is a
prefix of the rest, emit `new` and skip `old`; otherwise keep one
character.  Inserted text is never rescanned. -/
def pyReplaceGo (old new : List Char) : Nat → List Char → List Char
  | 0, s => s
  | _ + 1, [] => []
  | fuel + 1, c :: cs =>
      if old.isPrefixOf (c :: cs) then new ++ pyReplaceGo old new fuel ((c :: cs).drop old.length)
      else c :: pyReplaceGo old new fuel cs

/-- Python `s.replace(old, new)`: replaces every (non-overlapping,
left-to-right) occurrence of `old` in `s` with `new`. -/
def pyReplace (s old new : List Char) : List Char :=
  if old = [] then pyReplaceEmpty new s else pyReplaceGo old new s.length s

/-- Python `sub in s` (substring containment). -/
def containsSubstr (s sub : List Char) : Bool :=
  (List.range (s.length + 1)).any fun i => sub.isPrefixOf (s.drop i)

/-- Python `s.index(sub)`: index of the leftmost occurrence, if any. -/
def indexOfSubstr (s sub : List Char) : Option Nat :=
  (List.range (s.length + 1)).find? fun i => sub.isPrefixOf (s.drop i)

/-- Python `s.rindex(sub)`: index of the rightmost occurrence, if any. -/
def rindexOfSubstr (s sub : List Char) : Option Nat :=
  ((List.range (s.length + 1)).filter fun i => sub.isPrefixOf (s.drop i)).getLast?

/-- Number of (possibly overlapping) occurrences of `sub` in `s`; used to
state "contains exactly one occurrence". -/
def countSubstr (s sub : List Char) : Nat :=
  (List.range (s.length + 1)).countP fun i => sub.isPrefixOf (s.drop i)

/-- Python file iteration: split content into lines, each keeping its
terminating newline; a final chunk without a newline is kept, an empty
tail is not. -/
def splitLinesKeepNl : List Char → List (List Char)
  | [] => []
  | c :: cs =>
      if c = '\n' then ['\n'] :: splitLinesKeepNl cs
      else
        match splitLinesKeepNl cs with
        | [] => [[c]]
        | h :: t => (c :: h) :: t

/-- Python `content.split(sep)` for a one-character separator: separators
are dropped, empty fields are kept, and the result is never empty. -/
def splitNl : List Char → List (List Char)
  | [] => [[]]
  | c :: cs =>
      match splitNl cs with
      | [] => [[c]]
      | h :: t => if c = '\n' then [] :: h :: t else (c :: h) :: t

/-- Python `"\n".join(lines)`. -/
def joinNl : List (List Char) → List Char
  | [] => []
  | [l] => l
  | l :: ls => l ++ '\n' :: joinNl ls

/-- Python `s.split()` (split on whitespace runs, dropping empty fields).
The first argument accumulates the current word in reverse. -/
def pySplitWsAux : List Char → List Char → List (List Char)
  | acc, [] => if acc = [] then [] else [acc.reverse]
  | acc, c :: cs =>
      if pyIsSpace c then
        if acc = [] then pySplitWsAux [] cs else acc.reverse :: pySplitWsAux [] cs
      else pySplitWsAux (c :: acc) cs

/-- Python `s.split()`. -/
def pySplitWs (s : List Char) : List (List Char) :=
  pySplitWsAux [] s

/-! ## convert_project.py: Pattern Extractor -/

/-- Decision procedure for `re.search("public.*static.*String", s)`:
the three literals occur in that order, and (since `.` does not match a
newline) the gaps between them contain no newline. -/
def regexSearchPSS (s : List Char) : Bool :=
  (List.range (s.length + 1)).any fun i =>
    (str "public").isPrefixOf (s.drop i) &&
    ((List.range (s.length + 1)).any fun j =>
      decide (i + 6 ≤ j) && (str "static").isPrefixOf (s.drop j) &&
      (((s.drop (i + 6)).take (j - (i + 6))).all fun c => !(c = '\n')) &&
      ((List.range (s.length + 1)).any fun k =>
        decide (j + 6 ≤ k) && (str "String").isPrefixOf (s.drop k) &&
        (((s.drop (j + 6)).take (k - (j + 6))).all fun c => !(c = '\n'))))

/-- The per-line test of `NLS_variable_lines`: the regex matches and the
line contains no `(`. -/
def NLSLineTest (l : List Char) : Bool :=
  regexSearchPSS l && !(containsSubstr l (str "("))

/-- The line-collecting loop of `NLS_variable_lines`. -/
def nvlGo : List (List Char) → List (List Char)
  | [] => []
  | l :: rest => (if NLSLineTest l then [l] else []) ++ nvlGo rest

/-- `NLS_variable_lines(filepath)`: the lines of the file (in file order)
matched by `re.search("public.*static.*String", line)` that do not
contain `(`.  The file is given by its content. -/
def NLS_variable_lines (content : List Char) : List (List Char) :=
  nvlGo (splitLinesKeepNl content)

/-- The line scan of `NLS_package`: the first line starting with
`"package "` yields the package name; reaching the end of the file raises
`ValueError` (modelled as `Except.error`). -/
def NLS_packageLines : List (List Char) → Except Unit (List Char)
  | [] => .error ()
  | l :: rest =>
      if (str "package ").isPrefixOf l then
        .ok (pyStrip (pyReplace (l.drop 8) (str ";") []))
      else NLS_packageLines rest

/-- `NLS_package(filepath)`: package name from the first `package ` line;
raises (uncaught by its callers) when the file has no package line. -/
def NLS_package (content : List Char) : Except Unit (List Char) :=
  NLS_packageLines (splitLinesKeepNl content)

/-- The package-collection loop of `main`
(`for i in NLS_files: filesandpackages[i] = NLS_package(i)`): an
exception raised for one file aborts the whole loop. -/
def collect_packages (files : List (List Char)) : Except Unit (List (List Char)) :=
  files.mapM NLS_package

/-- `remove_lines_from_file(filepath, lines)`: rewrites the file keeping
only lines not in `lines`; returns (changed, new file content).  The file
is always written back. -/
def remove_lines_from_file (content : List Char) (lines : List (List Char)) :
    Bool × List Char :=
  let ls := splitLinesKeepNl content
  ((ls.any fun l => lines.contains l), (ls.filter fun l => !(lines.contains l)).flatten)

/-- `os.path.basename` (POSIX): the part after the last `/`. -/
def pyBasename (p : List Char) : List Char :=
  (p.reverse.takeWhile fun c => !(c = '/')).reverse

/-- The root part of `os.path.splitext`: drop the suffix starting at the
last dot, unless every character before that dot is itself a dot. -/
def pySplitextRoot (b : List Char) : List Char :=
  match ((List.range b.length).filter fun i => b.getD i ' ' = '.').getLast? with
  | none => b
  | some i => if (b.take i).all (fun c => c = '.') then b else b.take i

/-- `filepath_to_classname(filepath)`. -/
def filepath_to_classname (filepath : List Char) : List Char :=
  pySplitextRoot (pyBasename filepath)

/-- The token scan of `line_to_variable`: find the token `String`, return
the next token; raise when `String` is absent (`ValueError` from the
for-else) or is the last token (`IndexError` on `elements[i+1]`). -/
def findAfterStringTok : List (List Char) → Except Unit (List Char)
  | [] => .error ()
  | t :: rest =>
      if t = str "String" then
        match rest with
        | [] => .error ()
        | v :: _ => .ok v
      else findAfterStringTok rest

/-- `line_to_variable(line)`: whitespace-split the line, take the token
after `String`, strip semicolons. -/
def line_to_variable (line : List Char) : Except Unit (List Char) :=
  (findAfterStringTok (pySplitWs line)).map fun v => pyReplace v (str ";") []

/-! ## convert_project.py: Replacement-Rule Builder -/

/-- One replacement rule: the Python tuple
`(FROM, TO, classname, variablename, package)`. -/
structure NLSPattern where
  FROM : List Char
  TO : List Char
  classname : List Char
  variablename : List Char
  package : List Char
deriving DecidableEq, Repr

/-- The Python sort key `(len(x[3]), x[3], len(x[2]), x[0])`, compared as
Python compares tuples and strings (lexicographically, characters by code
point), expressed with the lexicographic product order. -/
def patternKey (p : NLSPattern) :
    Lex (Nat × Lex (List Char × Lex (Nat × List Char))) :=
  toLex (p.variablename.length, toLex (p.variablename, toLex (p.classname.length, p.FROM)))

/-- The comparison used to sort the rule list ascending. -/
def patternLe (a b : NLSPattern) : Prop := patternKey a ≤ patternKey b

instance : DecidableRel patternLe := fun a b =>
  inferInstanceAs (Decidable (patternKey a ≤ patternKey b))

instance : IsTotal NLSPattern patternLe :=
  ⟨fun a b => le_total (patternKey a) (patternKey b)⟩

instance : IsTrans NLSPattern patternLe :=
  ⟨fun _ _ _ hab hbc => le_trans hab hbc⟩

/-- Ascending comparison on `(filepath, lines)` items: Python's
`sorted(filesandlines.items())` compares the path first, and dict keys
are unique, so only the path is ever compared. -/
def itemLe (a b : (List Char) × List (List Char)) : Prop := a.1 ≤ b.1

instance : DecidableRel itemLe := fun a b =>
  inferInstanceAs (Decidable (a.1 ≤ b.1))

/-- Association-list lookup, modelling Python dict indexing
(`filesandpackages[filepath]`); a missing key raises `KeyError`. -/
def lookupAssoc (m : List ((List Char) × List Char)) (k : List Char) : Except Unit (List Char) :=
  match m.find? (fun e => e.1 = k) with
  | none => .error ()
  | some e => .ok e.2

/-- Build the rule for one declaration line of one holder file
(`TEMPLATE_MESSAGE_VARIABLE` / `TEMPLATE_MESSAGE_TOSTRING` instantiation). -/
def buildOne (fap : List ((List Char) × List Char)) (filepath line : List Char) :
    Except Unit NLSPattern := do
  let classname := filepath_to_classname filepath
  let variablename ← line_to_variable line
  let package ← lookupAssoc fap filepath
  .ok { FROM := classname ++ str "." ++ variablename
        TO := classname ++ str ".getString(\"" ++ variablename ++ str "\")"
        classname := classname
        variablename := variablename
        package := package }

/-- The nested loops of `build_replacement_patterns`, producing the raw
(unsorted) rule list; an exception from `line_to_variable` or the dict
lookup aborts the whole build. -/
def buildRaw (fap : List ((List Char) × List Char)) :
    List ((List Char) × List (List Char)) → Except Unit (List NLSPattern)
  | [] => .ok []
  | (fp, lines) :: items => do
      let ps ← lines.mapM (buildOne fap fp)
      let rest ← buildRaw fap items
      .ok (ps ++ rest)

/-- `build_replacement_patterns(filesandlines, filesandpackages)`:
iterate `sorted(filesandlines.items())`, build one rule per declaration
line, then return `reversed(sorted(patterns, key=...))`. -/
def build_replacement_patterns (fal : List ((List Char) × List (List Char)))
    (fap : List ((List Char) × List Char)) : Except Unit (List NLSPattern) :=
  match buildRaw fap (List.insertionSort itemLe fal) with
  | .error e => .error e
  | .ok patterns => .ok (List.insertionSort patternLe patterns).reverse

/-! ## convert_project.py: safe variable substitution

`regex_replace_variable_safely` uses two compiled regexes:
`'[^\."]' + variablename + '[^"]'` and `'^[^"]' + variablename`.
Both are a fixed-width character class plus a literal, so a match at
position `i` is decided pointwise and `re.search` returns the leftmost
match at or after the start position (`^` only ever matches at absolute
position 0). -/

/-- A match of `[^\."]V[^"]` starting at position `i` of `s`:
one character that is neither `.` nor `"`, then `V`, then one character
that is not `"`. -/
def matchWD (s V : List Char) (i : Nat) : Bool :=
  decide (i + V.length + 2 ≤ s.length) &&
  !(s.getD i ' ' = '.') && !(s.getD i ' ' = '"') &&
  V.isPrefixOf (s.drop (i + 1)) &&
  !(s.getD (i + 1 + V.length) ' ' = '"')

/-- `re.search` for `[^\."]V[^"]` from position `pos`: leftmost match as
(start, end). -/
def searchWD (s V : List Char) (pos : Nat) : Option (Nat × Nat) :=
  ((List.range' pos (s.length + 1 - pos)).find? fun i => matchWD s V i).map
    fun i => (i, i + V.length + 2)

/-- `re.search` for `^[^"]V` from position `pos`: the anchor restricts
any match to absolute position 0, so a search from `pos > 0` fails. -/
def searchAS (s V : List Char) (pos : Nat) : Option (Nat × Nat) :=
  if pos = 0 && decide (1 + V.length ≤ s.length) && !(s.getD 0 ' ' = '"') &&
     V.isPrefixOf (s.drop 1)
  then some (0, 1 + V.length) else none

/-- First `while` loop of `regex_replace_variable_safely`: replace
`content[start+1 : end-1]` (the variable) by `TO`, keeping the captured
context characters, and resume searching at
`end + len(TO) - len(V) - 1`.  The fuel bounds the iteration count; each
step strictly decreases `content.length - pos`, so
`content.length + 1` fuel is never exhausted. -/
def rrvsLoop1 (V TO : List Char) : Nat → List Char → Nat → List Char
  | 0, content, _ => content
  | fuel + 1, content, pos =>
      match searchWD content V pos with
      | none => content
      | some (s, e) =>
          rrvsLoop1 V TO fuel (content.take (s + 1) ++ TO ++ content.drop (e - 1))
            (e + TO.length - (V.length + 1))

/-- Second `while` loop: replace `content[start : end]` (context
character included) by `TO` and resume at `end + len(TO) - len(V)`;
since the pattern is anchored, at most one iteration ever fires. -/
def rrvsLoop2 (V TO : List Char) : Nat → List Char → Nat → List Char
  | 0, content, _ => content
  | fuel + 1, content, pos =>
      match searchAS content V pos with
      | none => content
      | some (s, e) =>
          rrvsLoop2 V TO fuel (content.take s ++ TO ++ content.drop e)
            (e + TO.length - V.length)

/-- `regex_replace_variable_safely(content, variablename, TO)`. -/
def regex_replace_variable_safely (content variablename TO : List Char) : List Char :=
  let c1 := rrvsLoop1 variablename TO (content.length + 1) content 0
  rrvsLoop2 variablename TO (c1.length + 1) c1 0

/-! ## convert_project.py: Rewrite Engine -/

/-- `"import {}.{}".format(package, classname)`. -/
def classimportOf (p : NLSPattern) : List Char :=
  str "import " ++ p.package ++ str "." ++ p.classname

/-- `"import static {}.{}".format(package, FROM)`. -/
def staticimportvariableOf (p : NLSPattern) : List Char :=
  str "import static " ++ p.package ++ str "." ++ p.FROM

/-- `"import static {}.{}.*".format(package, classname)`. -/
def staticimportstarOf (p : NLSPattern) : List Char :=
  str "import static " ++ p.package ++ str "." ++ p.classname ++ str ".*"

/-- One iteration of the first rule loop of `replace_NLS_usage`.  The
regexes `uses_static_variable_import_matcher` and
`uses_static_star_import_matcher` are the import literals with `.` and
`*` escaped, so their `search` is substring containment.  The state is
(content, replaced-set). -/
def nlsStep1 (st : List Char × List (List Char)) (p : NLSPattern) :
    List Char × List (List Char) :=
  let (content, replaced) := st
  let (content, replaced) :=
    if replaced.contains (staticimportvariableOf p) then (content, replaced)
    else if containsSubstr content (staticimportvariableOf p) then
      let replaced := staticimportvariableOf p :: replaced
      let content := pyReplace content (staticimportvariableOf p) (classimportOf p)
      if replaced.contains p.variablename then (content, replaced)
      else (regex_replace_variable_safely content p.variablename p.TO,
            p.variablename :: replaced)
    else (content, replaced)
  let (content, replaced) :=
    if containsSubstr content (staticimportstarOf p) then
      if replaced.contains p.variablename then (content, replaced)
      else (regex_replace_variable_safely content p.variablename p.TO,
            p.variablename :: replaced)
    else (content, replaced)
  if replaced.contains p.FROM then (content, replaced)
  else if containsSubstr content p.FROM then
    (pyReplace content p.FROM p.TO, p.FROM :: replaced)
  else (content, replaced)

/-- One iteration of the second rule loop (deferred star-import
replacement). -/
def nlsStep2 (st : List Char × List (List Char)) (p : NLSPattern) :
    List Char × List (List Char) :=
  let (content, replaced) := st
  if containsSubstr content (staticimportstarOf p) then
    if replaced.contains (staticimportstarOf p) then (content, replaced)
    else (pyReplace content (staticimportstarOf p) (classimportOf p),
          staticimportstarOf p :: replaced)
  else (content, replaced)

/-- `replace_NLS_usage(content, patterns)`: the two rule loops sharing
one replaced-set. -/
def replace_NLS_usage (content : List Char) (patterns : List NLSPattern) : List Char :=
  (patterns.foldl nlsStep2 (patterns.foldl nlsStep1 (content, []))).1

/-! ## convert_project.py: Message-Holder Transformer -/

/-- The three additional import lines joined by `";\n"` plus `";\n\n"`. -/
def additionalImportsBlock : List Char :=
  str "import net.disy.commons.core.locale.IMessageResolver;\nimport net.disy.commons.core.locale.ResourceBundleMessageResolver;\nimport java.util.MissingResourceException;\n\n"

/-- `add_import_to_string(content, existing_import)`: insert the import
block before the first occurrence of `existing_import`.  When the import
is absent the Python code evaluates `logging.error(..., filepath)` with
`filepath` undefined in that scope, raising `NameError` (and even
without that it would return `None`, crashing the caller), so the
absent-import case is modelled as `Except.error`. -/
def add_import_to_string (content existing_import : List Char) : Except Unit (List Char) :=
  match indexOfSubstr content existing_import with
  | none => .error ()
  | some idx => .ok (content.take idx ++ additionalImportsBlock ++ content.drop idx)

/-- The resolver field declaration inserted in place of the static block. -/
def resolverDecl : List Char :=
  str "private static final IMessageResolver MSG = new ResourceBundleMessageResolver(BUNDLE_NAME);"

/-- `replace_static_constructor_with_resolver(content)`: splice the
resolver declaration over `static {` ... first `}`; either failing
`index` raises `ValueError` (`Except.error`). -/
def replace_static_constructor_with_resolver (content : List Char) : Except Unit (List Char) :=
  match indexOfSubstr content (str "static \x7b") with
  | none => .error ()
  | some startidx =>
      match indexOfSubstr (content.drop (startidx + 8)) (str "\x7d") with
      | none => .error ()
      | some stopidx =>
          .ok (content.take startidx ++ resolverDecl ++
               content.drop (startidx + 8 + stopidx + 1))

/-- `TEMPLATE_GETSTRING`. -/
def TEMPLATE_GETSTRING : List Char :=
  str "\n  public static String getString(String key) \x7b\n    return MSG.getString(key);\n  \x7d"

/-- `add_to_end_of_last_class(content, block)`: insert `block` before the
last occurrence of `"\n}"`; a missing occurrence raises `ValueError`
(uncaught in `rewrite_NLS_Messages_file`). -/
def add_to_end_of_last_class (content block : List Char) : Except Unit (List Char) :=
  match rindexOfSubstr content (str "\n\x7d") with
  | none => .error ()
  | some endidx => .ok (content.take endidx ++ block ++ content.drop endidx)

/-- Python `line.strip() == ""`. -/
def pyIsBlank (l : List Char) : Bool := l.all pyIsSpace

/-- `all_empty(*args)` of `cleanup_empty_lines`: every argument is
non-`None` and blank. -/
def optBlank : Option (List Char) → Bool
  | none => false
  | some l => pyIsBlank l

/-- The filtering loop of `cleanup_empty_lines`, carrying the previous
two original lines; the last line additionally requires its predecessor
and itself not to be both blank. -/
def cleanupGo : Option (List Char) → Option (List Char) → List (List Char) → List (List Char)
  | _, _, [] => []
  | pp, p, l :: rest =>
      (if !(optBlank pp && optBlank p && pyIsBlank l) &&
          (!rest.isEmpty || !(optBlank p && pyIsBlank l))
       then [l] else []) ++ cleanupGo p (some l) rest

/-- `cleanup_empty_lines(content)`: split on newlines, drop a blank line
whose two predecessors are blank (and a final blank line whose
predecessor is blank), rejoin. -/
def cleanup_empty_lines (content : List Char) : List Char :=
  joinNl (cleanupGo none none (splitNl content))

/-- `rewrite_NLS_Messages_file(filepath, variablelines)`, modelled on the
file content: step 1 removes the declaration lines and writes the file
back; the static-block replacement failure is caught (warning logged,
returns `(False, content-after-removal)`); failures of the later steps
are uncaught (`Except.error`).  The returned pair is (changed flag,
resulting file content). -/
def rewrite_NLS_Messages_file (fileContent : List Char) (variablelines : List (List Char)) :
    Except Unit (Bool × List Char) :=
  let removal := remove_lines_from_file fileContent variablelines
  let changed := removal.1
  let content := removal.2
  match replace_static_constructor_with_resolver content with
  | .error _ => .ok (false, content)
  | .ok rewritten =>
      match add_import_to_string rewritten (str "import org.eclipse.osgi.util.NLS") with
      | .error _ => .error ()
      | .ok r2 =>
          match add_to_end_of_last_class r2 TEMPLATE_GETSTRING with
          | .error _ => .error ()
          | .ok r3 =>
              let r4 := pyReplace (cleanup_empty_lines r3) (str " extends NLS") []
              let changed := changed || decide (¬ r4 = content)
              .ok (changed, if changed then r4 else content)

/-! ## eclipse_jinto_setup.py: Settings Generator -/

/-- `BUNDLE_DECLARATION`. -/
def BUNDLE_DECLARATION : List Char := str "private static final String BUNDLE_NAME"

/-- `CLASS_DECLARATION`. -/
def CLASS_DECLARATION : List Char := str "public class "

/-- `TEMPLATE_RESOURCE_BUNDLE_REFERENCE_TAG` up to the `{properties}`
hole: in the Python source `\\=` and `\\n` denote a literal backslash
followed by `=` or `n` (the Java-properties escaping of the embedded
XML). -/
def tagPartA : List Char := str "<resourceBundleReference resourceBundleName\\=\""

/-- Between the `{properties}` hole and the `{accessor}` hole. -/
def tagPartB : List Char := str "\">\\n<accessor typeName\\=\""

/-- After the `{accessor}` hole. -/
def tagPartC : List Char :=
  str "\">\\n<methodReference methodName\\=\"getString\">\\n<parameter index\\=\"0\" isSelected\\=\"true\" parameterName\\=\"key\" parameterType\\=\"java.lang.String\"/>\\n</methodReference>\\n</accessor>\\n</resourceBundleReference>"

/-- `process_bundle_template(accessor, properties)`. -/
def process_bundle_template (accessor properties : List Char) : List Char :=
  tagPartA ++ properties ++ tagPartB ++ accessor ++ tagPartC

/-- `TEMPLATE` up to the `{resource_bundle_reference}` hole. -/
def settingsTemplateA : List Char :=
  str "de.guhsoft.jinto.core.accessorConfiguration=<?xml version\\=\"1.0\" encoding\\=\"UTF-8\"?>\\n<root>\\n"

/-- `TEMPLATE` after the hole (a real newline before and after the
`eclipse.preferences.version=1` line). -/
def settingsTemplateB : List Char := str "\\n</root>\neclipse.preferences.version=1\n"

/-- `generate_settings_data(accessors_and_properties)`: join one filled
bundle-reference block per pair with the literal two-character `\n`,
wrapped in the fixed template. -/
def generate_settings_data (aps : List (List Char × List Char)) : List Char :=
  settingsTemplateA ++
  (List.intercalate (str "\\n") (aps.map fun ap => process_bundle_template ap.1 ap.2)) ++
  settingsTemplateB

/-- One scan step of `extract_accessor_and_properties`: update the three
`Option` slots from one line (each only while still `None`). -/
def extractUpd (l : List Char) (pkg props cls : Option (List Char)) :
    Option (List Char) × Option (List Char) × Option (List Char) :=
  let pkg := if pkg.isNone && (str "package").isPrefixOf (pyStrip l) then
      some (pyStrip (pyReplace (pyReplace l (str ";") []) (str "package") []))
    else pkg
  let props := if props.isNone && containsSubstr l BUNDLE_DECLARATION then
      let p := pyStrip (pyReplace (pyReplace (pyReplace (pyReplace l
                 BUNDLE_DECLARATION []) (str "\"") []) (str "=") []) (str ";") [])
      some (if containsSubstr p (str "/") then pyStrip (p.takeWhile fun c => !(c = '/'))
            else p)
    else props
  let cls := if cls.isNone && containsSubstr l CLASS_DECLARATION then
      some (pyStrip (pyReplace (pyReplace l CLASS_DECLARATION []) (str "\x7b") []))
    else cls
  (pkg, props, cls)

/-- The line loop of `extract_accessor_and_properties`, including the
`break` once all three facts are found. -/
def extractGo : List (List Char) → Option (List Char) → Option (List Char) →
    Option (List Char) → Option (List Char) × Option (List Char) × Option (List Char)
  | [], pkg, props, cls => (pkg, props, cls)
  | l :: rest, pkg, props, cls =>
      let st := extractUpd l pkg props cls
      if st.1.isSome && st.2.1.isSome && st.2.2.isSome then st
      else extractGo rest st.1 st.2.1 st.2.2

/-- `extract_accessor_and_properties(filepath)`: returns
`(package + "." + classname, properties)`; any fact never found raises
`ValueError`. -/
def extract_accessor_and_properties (content : List Char) :
    Except Unit (List Char × List Char) :=
  match extractGo (splitLinesKeepNl content) none none none with
  | (some pkg, some props, some cls) => .ok (pkg ++ str "." ++ cls, props)
  | _ => .error ()

/-! ## Spec-modelled whole-word matching (for comparison with
`NLS_variable_lines`) -/

/-- A character of a "word" in the regex `\b` sense. -/
def isWordChar (c : Char) : Bool := c.isAlphanum || c = '_'

/-- Modelled from the spec: token `tok` occurs at position `i` of `s` as
a whole word (not adjacent to word characters on either side). -/
def wholeWordAt (tok s : List Char) (i : Nat) : Bool :=
  tok.isPrefixOf (s.drop i) &&
  (decide (i = 0) || !isWordChar (s.getD (i - 1) ' ')) &&
  !isWordChar (s.getD (i + tok.length) ' ')

/-- Modelled from the spec: the line "contains `public`, `static`,
`String` as whole-word tokens in that relative order". -/
def spec_wholeWordPSS (l : List Char) : Bool :=
  (List.range (l.length + 1)).any fun i =>
    wholeWordAt (str "public") l i &&
    ((List.range (l.length + 1)).any fun j =>
      decide (i + 6 ≤ j) && wholeWordAt (str "static") l j &&
      ((List.range (l.length + 1)).any fun k =>
        decide (j + 6 ≤ k) && wholeWordAt (str "String") l k))

/-! ## Auxiliary decision procedures used to state properties -/

/-- The variable name occurs nowhere in `content` at a position `≥ 1`
(the Python regexes of `regex_replace_variable_safely` can only match
the variable at positions `≥ 1`). -/
def noOccurrenceFrom1 (content V : List Char) : Bool :=
  (List.range' 1 content.length).all fun i => !(V.isPrefixOf (content.drop i))

/-- None of the three detection literals of any rule (static variable
import, static star import, fromPattern) occurs in `c`. -/
def noDetectors (c : List Char) (ps : List NLSPattern) : Bool :=
  ps.all fun p =>
    !(containsSubstr c (staticimportvariableOf p)) &&
    !(containsSubstr c (staticimportstarOf p)) &&
    !(containsSubstr c p.FROM)

/-- Scan a line list keeping the length of the current run of blank
lines; fails as soon as a third consecutive blank line is seen. -/
def blankRunChk : Nat → List (List Char) → Bool
  | _, [] => true
  | k, l :: ls => if pyIsBlank l then decide (k < 2) && blankRunChk (k + 1) ls
                  else blankRunChk 0 ls

/-- The line list contains no run of three or more consecutive blank
lines. -/
def noThreeBlankRun (ls : List (List Char)) : Bool := blankRunChk 0 ls

/-- The blank-run length forced by the two carried predecessor lines of
`cleanupGo` (an invariant-state abstraction used in its verification). -/
def blankCtx (pp p : Option (List Char)) : Nat :=
  if optBlank p then (if optBlank pp then 2 else 1) else 0

/-! ## Concrete fixtures -/

/-- The single rule built from `public static String FOO_a;` in class
`Bah` under package `foo`. -/
def bahRule : NLSPattern :=
  { FROM := str "Bah.FOO_a"
    TO := str "Bah.getString(\"FOO_a\")"
    classname := str "Bah"
    variablename := str "FOO_a"
    package := str "foo" }

/-- A well-formed rule for variable `V` of class `C` in package `p`. -/
def cvRule : NLSPattern :=
  { FROM := str "C.V"
    TO := str "C.getString(\"V\")"
    classname := str "C"
    variablename := str "V"
    package := str "p" }

/-! ## Lemmas: the rewrite engine is the identity when no detection
literal occurs -/

theorem nlsStep1_noop (c : List Char) (R : List (List Char)) (p : NLSPattern)
    (h1 : containsSubstr c (staticimportvariableOf p) = false)
    (h2 : containsSubstr c (staticimportstarOf p) = false)
    (h3 : containsSubstr c p.FROM = false) :
    nlsStep1 (c, R) p = (c, R) := by
  simp [nlsStep1, h1, h2, h3]

theorem nlsStep2_noop (c : List Char) (R : List (List Char)) (p : NLSPattern)
    (h2 : containsSubstr c (staticimportstarOf p) = false) :
    nlsStep2 (c, R) p = (c, R) := by
  simp [nlsStep2, h2]

theorem noDetectors_iff (c : List Char) (ps : List NLSPattern) :
    noDetectors c ps = true ↔
      ∀ p ∈ ps, containsSubstr c (staticimportvariableOf p) = false ∧
        containsSubstr c (staticimportstarOf p) = false ∧
        containsSubstr c p.FROM = false := by
  simp only [noDetectors, List.all_eq_true, Bool.and_eq_true, Bool.not_eq_true', and_assoc]

theorem foldl_nlsStep1_noop (c : List Char) :
    ∀ (ps : List NLSPattern) (R : List (List Char)),
      (∀ p ∈ ps, containsSubstr c (staticimportvariableOf p) = false ∧
        containsSubstr c (staticimportstarOf p) = false ∧
        containsSubstr c p.FROM = false) →
      List.foldl nlsStep1 (c, R) ps = (c, R) := by
  intro ps
  induction ps with
  | nil => intro R _; rfl
  | cons p ps ih =>
      intro R h
      have hp := h p (List.mem_cons_self p ps)
      rw [List.foldl_cons, nlsStep1_noop c R p hp.1 hp.2.1 hp.2.2]
      exact ih R fun q hq => h q (List.mem_cons_of_mem p hq)

theorem foldl_nlsStep2_noop (c : List Char) :
    ∀ (ps : List NLSPattern) (R : List (List Char)),
      (∀ p ∈ ps, containsSubstr c (staticimportstarOf p) = false) →
      List.foldl nlsStep2 (c, R) ps = (c, R) := by
  intro ps
  induction ps with
  | nil => intro R _; rfl
  | cons p ps ih =>
      intro R h
      rw [List.foldl_cons, nlsStep2_noop c R p (h p (List.mem_cons_self p ps))]
      exact ih R fun q hq => h q (List.mem_cons_of_mem p hq)

theorem replace_NLS_usage_noop (c : List Char) (ps : List NLSPattern)
    (h : noDetectors c ps = true) : replace_NLS_usage c ps = c := by
  have h' := (noDetectors_iff c ps).1 h
  unfold replace_NLS_usage
  rw [foldl_nlsStep1_noop c ps [] h', foldl_nlsStep2_noop c ps []
    fun p hp => (h' p hp).2.1]

/-! ## C9 -/

/-- C9: for every content `c` and rule list `ps` such that no rule's
static-variable-import literal, static-star-import literal, or
fromPattern occurs in `c`, `replace_NLS_usage c ps = c` — bare
variable-name occurrences alone never trigger any rewriting. -/
theorem C9_frame_no_detector_no_rewrite (c : List Char) (ps : List NLSPattern)
    (h : noDetectors c ps = true) : replace_NLS_usage c ps = c :=
  replace_NLS_usage_noop c ps h

theorem C9_witness :
    noDetectors (str "y = FOO_a; z = FOO_a + 1;") [bahRule] = true ∧
    replace_NLS_usage (str "y = FOO_a; z = FOO_a + 1;") [bahRule] =
      str "y = FOO_a; z = FOO_a + 1;" :=
  ⟨by decide, C9_frame_no_detector_no_rewrite _ _ (by decide)⟩

/-! ## C3 -/

/-- C3 counterexample: `replace_NLS_usage` is not idempotent.  On
`"import static p.C.*.V"` with the single well-formed rule for `C.V`,
the first run's deferred star-import replacement produces
`"import p.C.V"`, which contains the fromPattern `"C.V"`, so a second
run rewrites it again. -/
theorem C3_counterexample :
    ¬ replace_NLS_usage (replace_NLS_usage (str "import static p.C.*.V") [cvRule]) [cvRule] =
        replace_NLS_usage (str "import static p.C.*.V") [cvRule] := by
  decide

/-- C3 amended: a second run of the Rewrite Engine yields no further
changes provided no rule's detection literal (static-variable-import,
static-star-import, fromPattern) remains in the once-rewritten content. -/
theorem C3_amended_idempotence (c : List Char) (ps : List NLSPattern)
    (h : noDetectors (replace_NLS_usage c ps) ps = true) :
    replace_NLS_usage (replace_NLS_usage c ps) ps = replace_NLS_usage c ps :=
  replace_NLS_usage_noop (replace_NLS_usage c ps) ps h

theorem C3_amended_witness :
    noDetectors (replace_NLS_usage (str "import static foo.Bah.*;\nx = FOO_a;") [bahRule])
      [bahRule] = true ∧
    replace_NLS_usage
        (replace_NLS_usage (str "import static foo.Bah.*;\nx = FOO_a;") [bahRule]) [bahRule] =
      replace_NLS_usage (str "import static foo.Bah.*;\nx = FOO_a;") [bahRule] :=
  ⟨by decide, C3_amended_idempotence _ _ (by decide)⟩

/-! ## C1 -/

theorem isPrefixOf_nil_of_ne_nil {V : List Char} (hV : ¬ V = []) :
    V.isPrefixOf ([] : List Char) = false := by
  cases V with
  | nil => exact absurd rfl hV
  | cons a as => rfl

theorem noOccurrenceFrom1_all {content V : List Char} (hV : ¬ V = [])
    (h : noOccurrenceFrom1 content V = true) :
    ∀ i, 1 ≤ i → V.isPrefixOf (content.drop i) = false := by
  intro i hi
  by_cases hlen : i ≤ content.length
  · have hmem : i ∈ List.range' 1 content.length := by
      rw [List.mem_range'_1]
      omega
    have := (List.all_eq_true.1 h) i hmem
    simpa [Bool.not_eq_true'] using this
  · rw [List.drop_eq_nil_of_le (by omega)]
    exact isPrefixOf_nil_of_ne_nil hV

theorem searchWD_eq_none {content V : List Char} (hV : ¬ V = [])
    (h : noOccurrenceFrom1 content V = true) (pos : Nat) :
    searchWD content V pos = none := by
  have hall := noOccurrenceFrom1_all hV h
  simp only [searchWD, Option.map_eq_none', List.find?_eq_none]
  intro i _
  simp [matchWD, hall (i + 1) (by omega)]

theorem searchAS_eq_none {content V : List Char} (hV : ¬ V = [])
    (h : noOccurrenceFrom1 content V = true) (pos : Nat) :
    searchAS content V pos = none := by
  have hall := noOccurrenceFrom1_all hV h
  have h1 : ¬ V <+: content.tail := by
    intro hp
    have h2 := hall 1 (by omega)
    rw [List.drop_one] at h2
    rw [← List.isPrefixOf_iff_prefix] at hp
    rw [h2] at hp
    simp at hp
  simp [searchAS, h1]

/-- C1 amended: the safe variable substitution never touches an
occurrence of the variable at the very start of the content.  Whenever
the non-empty variable name `V` occurs in `content` at no position
`≥ 1`, the content is returned entirely unchanged for every accessor
string `T` (both regex passes can only match `V` at positions `≥ 1`);
in particular the leading stand-alone occurrence in
`V ++ " used in code"` is not replaced, also for a `T` that contains no
`.`.  A stand-alone occurrence with at least one character of context
before and after it is replaced by the accessor string with the
captured context character preserved, while qualified (`Cls.V`) and
quoted (`"V"`) occurrences are left untouched, as at the concrete
input `x = FOO_a; y = Cls.FOO_a; z = "FOO_a";` with the dot-free
accessor string `GETFOO`. -/
theorem C1_amended_safe_substitution :
    (∀ content V T : List Char, ¬ V = [] → noOccurrenceFrom1 content V = true →
        regex_replace_variable_safely content V T = content) ∧
    regex_replace_variable_safely (str "x = FOO_a; y = Cls.FOO_a; z = \"FOO_a\";")
        (str "FOO_a") (str "GETFOO") =
      str "x = GETFOO; y = Cls.FOO_a; z = \"FOO_a\";" := by
  constructor
  · intro content V T hV h
    unfold regex_replace_variable_safely
    have h1 : rrvsLoop1 V T (content.length + 1) content 0 = content := by
      simp [rrvsLoop1, searchWD_eq_none hV h 0]
    rw [h1]
    simp [rrvsLoop2, searchAS_eq_none hV h 0]
  · decide

theorem C1_amended_witness :
    regex_replace_variable_safely (str "BAR is here") (str "BAR") (str "X") =
      str "BAR is here" :=
  C1_amended_safe_substitution.1 _ _ _ (by decide) (by decide)

/-- C1 counterexample: contrary to the claim, the occurrence of the
variable at position 0 of `V ++ " used in code"` is not replaced — with
the non-empty variable name `V = FOO` and the accessor string `T = X`
(which contains no `.`, so the input lies inside the claim's stated
domain), the content comes back unchanged instead of having its leading
stand-alone occurrence rewritten to the accessor string. -/
theorem C1_counterexample :
    regex_replace_variable_safely (str "FOO used in code") (str "FOO") (str "X") =
      str "FOO used in code" ∧
    ¬ regex_replace_variable_safely (str "FOO used in code") (str "FOO") (str "X") =
      str "X used in code" := by
  exact ⟨by decide, by decide⟩

/-! ## C4 -/

/-- C4: for the single rule built from `public static String FOO_a;` in
class `Bah` under package `foo`, `replace_NLS_usage` turns the line
`import static foo.Bah.*;` into `import foo.Bah;` and the usage
`x = FOO_a;` into `x = Bah.getString("FOO_a");`. -/
theorem C4_end_to_end_scenario :
    build_replacement_patterns
        [(str "foo/Bah.java", [str "  public static String FOO_a;\n"])]
        [(str "foo/Bah.java", str "foo")] = .ok [bahRule] ∧
    replace_NLS_usage
        (str "package blah;\n\nimport static foo.Bah.*;\n\npublic class Use \x7b\n  void m() \x7b\n    x = FOO_a;\n  \x7d\n\x7d\n")
        [bahRule] =
      str "package blah;\n\nimport foo.Bah;\n\npublic class Use \x7b\n  void m() \x7b\n    x = Bah.getString(\"FOO_a\");\n  \x7d\n\x7d\n" := by
  exact ⟨by decide, by decide⟩

/-! ## C2 -/

/-- C2: `build_replacement_patterns` returns the rule list sorted
ascending by (variable-name length, variable name, class-name length,
fromPattern) and then reversed, so successive rules have non-increasing
keys — longest variable names first, ties broken by lexical variable
name, then longest class name, then lexical fromPattern, all
descending; in particular, for `FOO_a` and `FOO_aa` declared in the
same class `Bah`, the rule for `FOO_aa` is ordered before the rule for
`FOO_a`. -/
theorem C2_rule_ordering :
    (∀ (fal : List ((List Char) × List (List Char)))
       (fap : List ((List Char) × List Char)) (ps : List NLSPattern),
        build_replacement_patterns fal fap = .ok ps →
        ps.Pairwise fun a b => patternKey b ≤ patternKey a) ∧
    build_replacement_patterns
        [(str "foo/Bah.java",
          [str "  public static String FOO_a;\n", str "  public static String FOO_aa;\n"])]
        [(str "foo/Bah.java", str "foo")] =
      .ok [{ FROM := str "Bah.FOO_aa"
             TO := str "Bah.getString(\"FOO_aa\")"
             classname := str "Bah"
             variablename := str "FOO_aa"
             package := str "foo" }, bahRule] := by
  constructor
  · intro fal fap ps h
    cases hb : buildRaw fap (List.insertionSort itemLe fal) with
    | error e => simp [build_replacement_patterns, hb] at h
    | ok patterns =>
        simp only [build_replacement_patterns, hb] at h
        cases h
        exact List.pairwise_reverse.mpr (List.sorted_insertionSort patternLe patterns)
  · decide

/-! ## C5 -/

theorem optBlank_none : optBlank none = false := rfl

theorem optBlank_some (l : List Char) : optBlank (some l) = pyIsBlank l := rfl

theorem cleanupGo_chk :
    ∀ (ls : List (List Char)) (pp p : Option (List Char)),
      blankRunChk (blankCtx pp p) (cleanupGo pp p ls) = true := by
  intro ls
  induction ls with
  | nil => intro pp p; rfl
  | cons l rest ih =>
      intro pp p
      by_cases hb : pyIsBlank l
      · by_cases hp : optBlank p
        · by_cases hpp : optBlank pp
          · have hgo : cleanupGo pp p (l :: rest) = cleanupGo p (some l) rest := by
              simp [cleanupGo, hb, hp, hpp]
            have e' : blankCtx pp p = 2 := by simp [blankCtx, hp, hpp]
            have e : blankCtx p (some l) = 2 := by simp [blankCtx, optBlank_some, hb, hp]
            have h2 := ih p (some l)
            rw [e] at h2
            rw [hgo, e']
            exact h2
          · cases rest with
            | nil => simp [cleanupGo, hb, hp, hpp, blankRunChk]
            | cons r rs =>
                have hgo : cleanupGo pp p (l :: r :: rs) =
                    l :: cleanupGo p (some l) (r :: rs) := by
                  simp [cleanupGo, hb, hp, hpp]
                have e' : blankCtx pp p = 1 := by simp [blankCtx, hp, hpp]
                have e : blankCtx p (some l) = 2 := by
                  simp [blankCtx, optBlank_some, hb, hp]
                have h2 := ih p (some l)
                rw [e] at h2
                rw [hgo, e']
                simp [blankRunChk, hb, h2]
        · have hgo : cleanupGo pp p (l :: rest) = l :: cleanupGo p (some l) rest := by
            simp [cleanupGo, hb, hp]
          have e' : blankCtx pp p = 0 := by simp [blankCtx, hp]
          have e : blankCtx p (some l) = 1 := by simp [blankCtx, optBlank_some, hb, hp]
          have h2 := ih p (some l)
          rw [e] at h2
          rw [hgo, e']
          simp [blankRunChk, hb, h2]
      · have hgo : cleanupGo pp p (l :: rest) = l :: cleanupGo p (some l) rest := by
          simp [cleanupGo, hb]
        have e : blankCtx p (some l) = 0 := by simp [blankCtx, optBlank_some, hb]
        have h2 := ih p (some l)
        rw [e] at h2
        rw [hgo]
        simp [blankRunChk, hb, h2]

theorem splitNl_ne_nil : ∀ c : List Char, ¬ splitNl c = [] := by
  intro c
  induction c with
  | nil => simp [splitNl]
  | cons ch cs ih =>
      simp only [splitNl]
      cases hcs : splitNl cs with
      | nil => exact absurd hcs ih
      | cons h t =>
          by_cases hch : ch = '\n' <;> simp [hch]

theorem splitNl_no_nl :
    ∀ (c : List Char) (l : List Char), l ∈ splitNl c → ∀ ch ∈ l, ¬ ch = '\n' := by
  intro c
  induction c with
  | nil =>
      intro l hl
      simp [splitNl] at hl
      simp [hl]
  | cons d ds ih =>
      intro l hl
      simp only [splitNl] at hl
      cases hcs : splitNl ds with
      | nil => exact absurd hcs (splitNl_ne_nil ds)
      | cons h t =>
          rw [hcs] at hl
          by_cases hd : d = '\n'
          · simp only [hd, if_true] at hl
            rcases List.mem_cons.1 hl with h1 | h2
            · simp [h1]
            · exact ih l (hcs ▸ h2)
          · simp only [hd, if_false] at hl
            rcases List.mem_cons.1 hl with h1 | h2
            · intro ch hch
              rcases List.mem_cons.1 (h1 ▸ hch) with rfl | hmem
              · exact hd
              · exact ih h (hcs ▸ List.mem_cons_self h t) ch hmem
            · exact ih l (hcs ▸ List.mem_cons_of_mem h h2)

theorem cleanupGo_mem :
    ∀ (ls : List (List Char)) (pp p : Option (List Char)) (l : List Char),
      l ∈ cleanupGo pp p ls → l ∈ ls := by
  intro ls
  induction ls with
  | nil => intro pp p l h; simp [cleanupGo] at h
  | cons x rest ih =>
      intro pp p l h
      simp only [cleanupGo, List.mem_append] at h
      rcases h with h1 | h2
      · rcases List.mem_ite_nil_right.1 h1 with ⟨_, h1⟩
        simp [List.mem_singleton.1 h1]
      · exact List.mem_cons_of_mem x (ih p (some x) l h2)

theorem splitNl_of_no_nl :
    ∀ l : List Char, (∀ ch ∈ l, ¬ ch = '\n') → splitNl l = [l] := by
  intro l
  induction l with
  | nil => intro _; rfl
  | cons c cs ih =>
      intro h
      have hc : ¬ c = '\n' := h c (List.mem_cons_self c cs)
      have ihs := ih fun ch hch => h ch (List.mem_cons_of_mem c hch)
      simp [splitNl, ihs, hc]

theorem splitNl_append_nl :
    ∀ (a rest : List Char), (∀ ch ∈ a, ¬ ch = '\n') →
      splitNl (a ++ '\n' :: rest) = a :: splitNl rest := by
  intro a
  induction a with
  | nil =>
      intro rest _
      simp only [List.nil_append, splitNl]
      cases hr : splitNl rest with
      | nil => exact absurd hr (splitNl_ne_nil rest)
      | cons h t => simp
  | cons c a' ih =>
      intro rest h
      have hc : ¬ c = '\n' := h c (List.mem_cons_self c a')
      have ihs := ih rest fun ch hch => h ch (List.mem_cons_of_mem c hch)
      simp [splitNl, ihs, hc]

theorem splitNl_joinNl :
    ∀ ls : List (List Char), ¬ ls = [] → (∀ l ∈ ls, ∀ ch ∈ l, ¬ ch = '\n') →
      splitNl (joinNl ls) = ls := by
  intro ls
  induction ls with
  | nil => intro h; exact absurd rfl h
  | cons l ls' ih =>
      intro _ h
      cases ls' with
      | nil =>
          simp only [joinNl]
          exact splitNl_of_no_nl l (h l (List.mem_cons_self l []))
      | cons l₂ ls₂ =>
          have hj : joinNl (l :: l₂ :: ls₂) = l ++ '\n' :: joinNl (l₂ :: ls₂) := rfl
          rw [hj, splitNl_append_nl l _ (h l (List.mem_cons_self l (l₂ :: ls₂))),
            ih (by simp) fun x hx => h x (List.mem_cons_of_mem l hx)]

theorem cleanupGo_none_cons (l : List Char) (rest : List (List Char)) :
    cleanupGo none none (l :: rest) = l :: cleanupGo none (some l) rest := by
  simp [cleanupGo, optBlank]

/-- C5: `cleanup_empty_lines` leaves no run of three or more consecutive
blank lines in its output (so a longer run is collapsed to at most two);
a run of four blank lines collapses to exactly two; and the presence or
absence of the file-terminating newline (the single trailing blank line
at end-of-file) is not altered. -/
theorem C5_cleanup_empty_lines :
    (∀ content : List Char,
        noThreeBlankRun (splitNl (cleanup_empty_lines content)) = true) ∧
    cleanup_empty_lines (str "a\n\n\n\n\nb") = str "a\n\n\nb" ∧
    cleanup_empty_lines (str "x \x7b\n  y\n\x7d") = str "x \x7b\n  y\n\x7d" ∧
    cleanup_empty_lines (str "x \x7b\n  y\n\x7d\n") = str "x \x7b\n  y\n\x7d\n" := by
  refine ⟨?_, by decide, by decide, by decide⟩
  intro content
  unfold cleanup_empty_lines
  have hne : ¬ cleanupGo none none (splitNl content) = [] := by
    cases hs : splitNl content with
    | nil => exact absurd hs (splitNl_ne_nil content)
    | cons l rest => rw [cleanupGo_none_cons]; simp
  have hnl : ∀ l ∈ cleanupGo none none (splitNl content), ∀ ch ∈ l, ¬ ch = '\n' :=
    fun l hl => splitNl_no_nl content l (cleanupGo_mem (splitNl content) none none l hl)
  rw [splitNl_joinNl _ hne hnl]
  have h := cleanupGo_chk (splitNl content) none none
  simpa [noThreeBlankRun, blankCtx, optBlank] using h

/-! ## C7 -/

theorem nvlGo_eq_filter : ∀ ls : List (List Char), nvlGo ls = ls.filter NLSLineTest := by
  intro ls
  induction ls with
  | nil => rfl
  | cons l rest ih =>
      by_cases h : NLSLineTest l <;> simp [nvlGo, List.filter_cons, h, ih]

/-- C7 counterexample: `NLS_variable_lines` is not whole-word based.  The
line `xpublicx xstaticx xStringx;` contains `public`, `static`, `String`
only inside longer words — it matches none of them as whole-word tokens —
yet it is returned, because the regex `public.*static.*String` matches
plain substrings. -/
theorem C7_counterexample :
    NLS_variable_lines (str "xpublicx xstaticx xStringx;\n") =
      [str "xpublicx xstaticx xStringx;\n"] ∧
    spec_wholeWordPSS (str "xpublicx xstaticx xStringx;\n") = false := by
  exact ⟨by decide, by decide⟩

/-- C7 amended: `NLS_variable_lines` produces the ordered sequence (in
file line order) of exactly those raw lines that match the regex
`public.*static.*String` — the three literals occur as substrings in
that relative order, with no whole-word requirement — and that do not
contain `(`; a line containing the three only inside longer words is
also selected. -/
theorem C7_amended_variable_lines :
    (∀ content : List Char,
        NLS_variable_lines content = (splitLinesKeepNl content).filter NLSLineTest) ∧
    NLS_variable_lines
        (str "package p;\npublic static String FOO_a;\nrepublic static_thing MyStrings;\npublic static String m() \x7b\n") =
      [str "public static String FOO_a;\n", str "republic static_thing MyStrings;\n"] ∧
    spec_wholeWordPSS (str "republic static_thing MyStrings;\n") = false := by
  refine ⟨?_, by decide, by decide⟩
  intro content
  exact nvlGo_eq_filter (splitLinesKeepNl content)

/-! ## C8 -/

/-- C8: from one accessor file declaring package `net.disy.x`, class
`Messages` and bundle `net.disy.x.messages`, the extractor returns
`(net.disy.x.Messages, net.disy.x.messages)`, and the generated settings
content contains exactly one
`<resourceBundleReference resourceBundleName\="net.disy.x.messages">`
block and exactly one `<accessor typeName\="net.disy.x.Messages">`
reference (the `\=` escaping comes from the fixed template). -/
theorem C8_settings_generation :
    extract_accessor_and_properties
        (str "package net.disy.x;\n\npublic class Messages \x7b\n  private static final String BUNDLE_NAME = \"net.disy.x.messages\"; // NON-NLS\n\x7d\n") =
      .ok (str "net.disy.x.Messages", str "net.disy.x.messages") ∧
    countSubstr (generate_settings_data [(str "net.disy.x.Messages", str "net.disy.x.messages")])
        (str "<resourceBundleReference resourceBundleName\\=\"net.disy.x.messages\">") = 1 ∧
    countSubstr (generate_settings_data [(str "net.disy.x.Messages", str "net.disy.x.messages")])
        (str "<accessor typeName\\=\"net.disy.x.Messages\">") = 1 := by
  exact ⟨by decide, by decide, by decide⟩

/-! ## C10 and C6 -/

theorem indexOfSubstr_eq_none {s sub : List Char}
    (h : containsSubstr s sub = false) : indexOfSubstr s sub = none := by
  simp only [containsSubstr, List.any_eq_false] at h
  simp only [indexOfSubstr, List.find?_eq_none]
  exact h

theorem rewrite_noStatic (c : List Char) (v : List (List Char))
    (h : containsSubstr (remove_lines_from_file c v).2 (str "static \x7b") = false) :
    rewrite_NLS_Messages_file c v = .ok (false, (remove_lines_from_file c v).2) := by
  have hidx := indexOfSubstr_eq_none h
  simp only [rewrite_NLS_Messages_file, replace_static_constructor_with_resolver, hidx]

/-- C10: when the holder file's content after declaration-line removal
contains no `static {` block, `rewrite_NLS_Messages_file` returns
`False` together with the post-removal file content: the removal done by
step 1 persists in the file, the returned changed-flag is `False`
regardless of it, and none of the later steps (import insertion,
accessor append, blank-line cleanup, ` extends NLS` removal) is
applied. -/
theorem C10_no_static_block_flag (c : List Char) (v : List (List Char))
    (h : containsSubstr (remove_lines_from_file c v).2 (str "static \x7b") = false) :
    rewrite_NLS_Messages_file c v = .ok (false, (remove_lines_from_file c v).2) :=
  rewrite_noStatic c v h

theorem C10_witness :
    (remove_lines_from_file (str "package p;\npublic static String A;\nx = 1;\n")
        [str "public static String A;\n"]).1 = true ∧
    ¬ (remove_lines_from_file (str "package p;\npublic static String A;\nx = 1;\n")
        [str "public static String A;\n"]).2 =
      str "package p;\npublic static String A;\nx = 1;\n" ∧
    rewrite_NLS_Messages_file (str "package p;\npublic static String A;\nx = 1;\n")
        [str "public static String A;\n"] =
      .ok (false, (remove_lines_from_file (str "package p;\npublic static String A;\nx = 1;\n")
        [str "public static String A;\n"]).2) :=
  ⟨by decide, by decide, C10_no_static_block_flag _ _ (by decide)⟩

/-- C6 counterexample: a file with no package line makes `NLS_package`
raise an uncaught `ValueError` inside `main`'s collection loop, aborting
the whole batch — here the second file (which is well-formed) is never
processed, contradicting "reported via a logged error or warning...not
fatal to the batch". -/
theorem C6_counterexample :
    collect_packages [str "public class X \x7b\n\x7d\n", str "package p;\nclass Y \x7b\n\x7d\n"] =
      .error () := by
  decide

/-- C6 amended: only the missing-static-block failure is reported and
skipped gracefully (`rewrite_NLS_Messages_file` logs a warning and
returns `False`, no exception).  The other three missing-element cases
raise uncaught exceptions: a file with no package line makes
`NLS_package` raise, aborting the batch; a declaration line with no
`String` token (which the extractor nevertheless selects) makes
`line_to_variable` — and with it the whole rule build — raise; a holder
file with no NLS import line makes the transformation raise after the
static block was already replaced. -/
theorem C6_amended_error_handling :
    (∀ (c : List Char) (v : List (List Char)),
        containsSubstr (remove_lines_from_file c v).2 (str "static \x7b") = false →
        rewrite_NLS_Messages_file c v = .ok (false, (remove_lines_from_file c v).2)) ∧
    NLS_package (str "public class X \x7b\n\x7d\n") = .error () ∧
    (NLSLineTest (str "  public static StringBuilder B;\n") = true ∧
     line_to_variable (str "  public static StringBuilder B;\n") = .error () ∧
     build_replacement_patterns
        [(str "p/Hold.java", [str "  public static StringBuilder B;\n"])]
        [(str "p/Hold.java", str "p")] = .error ()) ∧
    rewrite_NLS_Messages_file
        (str "package p;\nclass M \x7b\nstatic \x7b\nx();\n\x7d\n\x7d\n") [] = .error () := by
  refine ⟨fun c v h => rewrite_noStatic c v h, by decide, ⟨by decide, by decide, by decide⟩,
    by decide⟩

theorem C6_amended_witness :
    rewrite_NLS_Messages_file (str "package q;\npublic static String Q_x;\nbody\n")
        [str "public static String Q_x;\n"] =
      .ok (false, (remove_lines_from_file (str "package q;\npublic static String Q_x;\nbody\n")
        [str "public static String Q_x;\n"]).2) :=
  C6_amended_error_handling.1 _ _ (by decide)

theorem C2_witness :
    List.Pairwise (fun a b => patternKey b ≤ patternKey a)
      [{ FROM := str "Bah.FOO_aa", TO := str "Bah.getString(\"FOO_aa\")",
         classname := str "Bah", variablename := str "FOO_aa", package := str "foo" },
       bahRule] :=
  C2_rule_ordering.1
    [(str "foo/Bah.java",
      [str "  public static String FOO_a;\n", str "  public static String FOO_aa;\n"])]
    [(str "foo/Bah.java", str "foo")] _ (by decide)
